import Mathlib

/-!
# Verification of the piker resource-caching and daemon-spawning core

Shallow embedding of `piker/_cacheables.py` (the keyed resource cache
`maybe_open_ctx` / `cache.run_ctx`, the broker-client cache
`open_cached_client`, and the `async_lifo_cache` decorator) and of
`piker/service/_daemon.py` (`maybe_spawn_daemon`).

The python code is cooperatively scheduled `trio` code.  The embedding
models each region between suspension points as an atomic step on an
explicit state record, with the check-then-construct critical section of
an acquire folded into one step exactly because the code holds
`cache.lock` across it.  Traces touching a single key are modelled; the
`cache.users` counter and the `cache.no_more_users` event are single
class-level attributes in the source (shared across keys), which
coincides with the per-key view on single-key traces.  The nursery
bookkeeping of lines 183-185/163 (`cache.nurseries`, keyed by
`id(mngr)`) is not modelled: no claim below depends on it.
-/

set_option autoImplicit false

namespace PikerSpec

/-! ## Association-list helpers (python `dict` restricted to the Nat keys used) -/

/-- Lookup of `d[k]`: first binding for `k`, as python dict access. -/
def alookup {α : Type} (k : Nat) : List (Nat × α) → Option α
  | [] => none
  | (k', v) :: rest => if k' = k then some v else alookup k rest

/-- `d[k] = v`: update the binding for `k`, or append a fresh one. -/
def aset {α : Type} (k : Nat) (v : α) : List (Nat × α) → List (Nat × α)
  | [] => [(k, v)]
  | (k', v') :: rest => if k' = k then (k, v) :: rest else (k', v') :: aset k v rest

/-- `d.pop(k)`: drop the binding for `k`. -/
def aerase {α : Type} (k : Nat) : List (Nat × α) → List (Nat × α)
  | [] => []
  | (k', v') :: rest => if k' = k then rest else (k', v') :: aerase k rest

/-! ## The keyed resource cache (`class cache` + `maybe_open_ctx`)

State fields mirror the class attributes of `cache`
(`_cacheables.py` lines 134-143) plus instrumentation counters:

* `lockHeld`      — `cache.lock` (a `trio.Lock`), true while held;
* `users`         — `cache.users`, a plain python int (may go negative);
* `values`        — `cache.values`, key ↦ published resource value;
* `eventSet`      — whether the current `cache.no_more_users` event is
                    already set (or no construction-task is waiting on it);
                    a fresh unset event is installed by `run_ctx` on each
                    successful construction (line 155);
* `teardowns`     — number of times a `run_ctx` task was released to run
                    its teardown (pop the key, exit the factory context);
* `factoryCalls`  — number of times a factory context manager was entered
                    (`async with mng as value` in `run_ctx`, line 153).
-/

structure CacheState where
  lockHeld : Bool
  users : Int
  values : List (Nat × Nat)
  eventSet : Bool
  teardowns : Nat
  factoryCalls : Nat
deriving DecidableEq

/-- The module-load state of `class cache`: lock free, `users = 0`,
empty `values`, `no_more_users = None` (nothing waiting: `eventSet`). -/
def CacheState.init : CacheState :=
  { lockHeld := false, users := 0, values := [], eventSet := true,
    teardowns := 0, factoryCalls := 0 }

/-- A factory (`mngr` argument of `maybe_open_ctx`): entering its context
either produces a value or raises. -/
abbrev Factory := Except Unit Nat

/-- `maybe_open_ctx` lines 179-208: `await cache.lock.acquire()`, then the
guarded check; on a hit `cache.users += 1; cache.lock.release(); yield
True, value`; on a miss `value = await n.start(cache.run_ctx, mngr, key)`
(which enters the factory, installs a fresh `no_more_users` event and
publishes `cache.values[key] = value`), then `cache.users += 1;
cache.lock.release(); yield False, value`.  If the factory raises, the
exception propagates with the lock still held (it is only dropped in the
`finally` block, modelled by `releasePhase`).  The returned state is the
one seen at the `yield` (success) or at the start of the `finally`
(failure). -/
def acquirePhase (s : CacheState) (key : Nat) (factory : Factory) :
    Except Unit (Bool × Nat) × CacheState :=
  let s := { s with lockHeld := true }
  match alookup key s.values with
  | some v =>
      (Except.ok (true, v), { s with users := s.users + 1, lockHeld := false })
  | none =>
      match factory with
      | Except.ok v =>
          (Except.ok (false, v),
           { s with factoryCalls := s.factoryCalls + 1,
                    eventSet := false,
                    values := (key, v) :: s.values,
                    users := s.users + 1,
                    lockHeld := false })
      | Except.error e =>
          (Except.error e, { s with factoryCalls := s.factoryCalls + 1 })

/-- The raw `trio.Lock.release()`: raises `RuntimeError` when the lock is
not held. -/
def lockRelease : Bool → Except Unit Bool
  | true => Except.ok false
  | false => Except.error ()

/-- Lines 213-214: `if cache.lock.locked(): cache.lock.release()` — the
guarded, hence total, release used in the cleanup phase. -/
def guardedRelease (held : Bool) : Bool :=
  if held then false else held

/-- `maybe_open_ctx` lines 210-222 (the `finally` block), together with
the teardown half of `cache.run_ctx` (lines 158-163) that it triggers:
`cache.users -= 1`; guarded lock release; then, when this context had a
`value` and `cache.users <= 0`, `cache.no_more_users.set()` — which, if
the event was not already set, releases the waiting `run_ctx` task to pop
`cache.values[key]` and exit the factory context.  `value` is `none` when
the acquire failed before producing a value. -/
def releasePhase (s : CacheState) (key : Nat) (value : Option Nat) : CacheState :=
  let s1 : CacheState := { s with users := s.users - 1 }
  let s2 : CacheState := { s1 with lockHeld := guardedRelease s1.lockHeld }
  match value with
  | none => s2
  | some _ =>
      if s2.users ≤ 0 then
        if s2.eventSet then s2
        else { s2 with eventSet := true, teardowns := s2.teardowns + 1,
                       values := aerase key s2.values }
      else s2

/-- One full `maybe_open_ctx` call as seen by the caller: on success the
value is yielded (the cleanup runs later, at context exit, via
`releasePhase`); on a factory failure the `finally` block runs before the
exception reaches the caller. -/
def acquireCall (s : CacheState) (key : Nat) (factory : Factory) :
    Except Unit (Bool × Nat) × CacheState :=
  match acquirePhase s key factory with
  | (Except.ok r, s') => (Except.ok r, s')
  | (Except.error e, s') => (Except.error e, releasePhase s' key none)

/-! ### Basic computation lemmas -/

theorem acquireCall_hit (s : CacheState) (key v : Nat) (f : Factory)
    (h : alookup key s.values = some v) :
    acquireCall s key f =
      (Except.ok (true, v),
       { s with users := s.users + 1, lockHeld := false }) := by
  simp [acquireCall, acquirePhase, h]

theorem acquireCall_miss (s : CacheState) (key v : Nat)
    (h : alookup key s.values = none) :
    acquireCall s key (Except.ok v) =
      (Except.ok (false, v),
       { s with factoryCalls := s.factoryCalls + 1,
                eventSet := false,
                values := (key, v) :: s.values,
                users := s.users + 1,
                lockHeld := false }) := by
  simp [acquireCall, acquirePhase, h]

theorem acquireCall_fail (s : CacheState) (key : Nat)
    (h : alookup key s.values = none) :
    acquireCall s key (Except.error ()) =
      (Except.error (),
       { s with factoryCalls := s.factoryCalls + 1,
                users := s.users - 1,
                lockHeld := false }) := by
  simp [acquireCall, acquirePhase, h, releasePhase, guardedRelease]

/-- C1: the acquire of `maybe_open_ctx` is single-flight per key: from any
state with no live entry for `key`, a successful acquire enters the
factory exactly once, publishes the value under `key`, and returns
`(false, value)`; and from any state in which an entry `value` is live
for `key`, an acquire returns `(true, value)` — the identical published
value — without entering its factory. -/
theorem maybe_open_ctx_single_flight (s : CacheState) (key v : Nat)
    (hmiss : alookup key s.values = none) :
    (acquireCall s key (Except.ok v)).1 = Except.ok (false, v) ∧
    ((acquireCall s key (Except.ok v)).2).factoryCalls = s.factoryCalls + 1 ∧
    alookup key ((acquireCall s key (Except.ok v)).2).values = some v ∧
    ∀ (s' : CacheState) (f' : Factory),
      alookup key s'.values = some v →
        (acquireCall s' key f').1 = Except.ok (true, v) ∧
        ((acquireCall s' key f').2).factoryCalls = s'.factoryCalls := by
  refine ⟨?_, ?_, ?_, ?_⟩
  · rw [acquireCall_miss s key v hmiss]
  · rw [acquireCall_miss s key v hmiss]
  · rw [acquireCall_miss s key v hmiss]
    simp [alookup]
  · intro s' f' hlive
    rw [acquireCall_hit s' key v f' hlive]
    exact ⟨rfl, rfl⟩

/-- Witness for C1 at a concrete input. -/
theorem maybe_open_ctx_single_flight_witness :
    alookup 2 CacheState.init.values = none ∧
    (acquireCall CacheState.init 2 (Except.ok 9)).1 = Except.ok (false, 9) ∧
    (acquireCall ((acquireCall CacheState.init 2 (Except.ok 9)).2) 2
        (Except.ok 100)).1 = Except.ok (true, 9) :=
  ⟨by decide,
   (maybe_open_ctx_single_flight CacheState.init 2 9 (by decide)).1,
   ((maybe_open_ctx_single_flight CacheState.init 2 9 (by decide)).2.2.2
      ((acquireCall CacheState.init 2 (Except.ok 9)).2) (Except.ok 100)
      (by decide)).1⟩

/-! ### Iterated acquires and releases of one key -/

/-- `n` successive `maybe_open_ctx` acquires of `key`, each passing a
factory that would produce `v` (only the first, missing, acquire enters
it). -/
def acqN (key v : Nat) : Nat → CacheState → CacheState
  | 0, s => s
  | n + 1, s => acqN key v n ((acquireCall s key (Except.ok v)).2)

/-- `n` successive context exits (the `finally` cleanup) for holders of
the published value `v` of `key`. -/
def relN (key v : Nat) : Nat → CacheState → CacheState
  | 0, s => s
  | n + 1, s => relN key v n (releasePhase s key (some v))

/-- The state while the entry for `key ↦ v` is live with `n` holders,
reached from `CacheState.init`. -/
def liveState (key v : Nat) (n : Nat) : CacheState :=
  { lockHeld := false, users := (n : Int), values := [(key, v)],
    eventSet := false, teardowns := 0, factoryCalls := 1 }

theorem acqN_live (key v : Nat) :
    ∀ (n m : Nat), acqN key v n (liveState key v m) = liveState key v (m + n) := by
  intro n
  induction n with
  | zero => intro m; rfl
  | succ k ih =>
      intro m
      have hhit : alookup key (liveState key v m).values = some v := by
        simp [liveState, alookup]
      rw [acqN, acquireCall_hit (liveState key v m) key v _ hhit]
      have : ({ liveState key v m with
                users := (liveState key v m).users + 1,
                lockHeld := false } : CacheState) = liveState key v (m + 1) := by
        simp [liveState]
      rw [this, ih (m + 1)]
      congr 1
      omega

theorem acqN_init (key v : Nat) (n : Nat) (hn : 1 ≤ n) :
    acqN key v n CacheState.init = liveState key v n := by
  obtain ⟨k, rfl⟩ : ∃ k, n = k + 1 := ⟨n - 1, by omega⟩
  have hmiss : alookup key CacheState.init.values = none := rfl
  rw [acqN, acquireCall_miss CacheState.init key v hmiss]
  have : ({ CacheState.init with
            factoryCalls := CacheState.init.factoryCalls + 1,
            eventSet := false,
            values := (key, v) :: CacheState.init.values,
            users := CacheState.init.users + 1,
            lockHeld := false } : CacheState) = liveState key v 1 := by
    simp [CacheState.init, liveState]
  rw [this, acqN_live key v k 1]
  congr 1
  omega

theorem releasePhase_live (key v : Nat) (m : Nat) (hm : 2 ≤ m) :
    releasePhase (liveState key v m) key (some v) = liveState key v (m - 1) := by
  have h1 : ¬ ((m : Int) - 1 ≤ 0) := by omega
  simp [releasePhase, liveState, guardedRelease, h1]
  omega

/-- The state after the last holder of the single live key departs:
teardown ran once, the key was popped, the event is set. -/
def deadState : CacheState :=
  { lockHeld := false, users := 0, values := [],
    eventSet := true, teardowns := 1, factoryCalls := 1 }

theorem releasePhase_last (key v : Nat) :
    releasePhase (liveState key v 1) key (some v) = deadState := by
  simp [releasePhase, liveState, guardedRelease, deadState, aerase]

theorem relN_live (key v : Nat) :
    ∀ (j m : Nat), j < m →
      relN key v j (liveState key v m) = liveState key v (m - j) := by
  intro j
  induction j with
  | zero => intro m _; rfl
  | succ k ih =>
      intro m hm
      rw [relN, releasePhase_live key v m (by omega), ih (m - 1) (by omega)]
      congr 1
      omega

theorem relN_succ_out (key v : Nat) (n : Nat) :
    ∀ (s : CacheState),
      relN key v (n + 1) s = relN key v 1 (relN key v n s) := by
  induction n with
  | zero => intro s; rfl
  | succ i ih =>
      intro s
      show relN key v (i + 1) (releasePhase s key (some v))
        = relN key v 1 (relN key v (i + 1) s)
      rw [ih (releasePhase s key (some v))]
      rfl

theorem relN_all (key v : Nat) (R : Nat) (hR : 1 ≤ R) :
    relN key v R (liveState key v R) = deadState := by
  obtain ⟨k, rfl⟩ : ∃ k, R = k + 1 := ⟨R - 1, by omega⟩
  by_cases hk : k = 0
  · subst hk
    exact releasePhase_last key v
  · rw [relN_succ_out key v k, relN_live key v k (k + 1) (by omega)]
    have : k + 1 - k = 1 := by omega
    rw [this]
    exact releasePhase_last key v

/-- C2: for one key, a sequence of `R` acquires followed by `R` releases
(from the pristine cache state) increments `cache.users` exactly once per
acquire and decrements it exactly once per release; teardown (setting
`no_more_users`, popping the key, exiting the factory context) has not
run after any of the first `R - 1` releases and has run exactly once
after the `R`-th, i.e. only on the count's transition from 1 to 0. -/
theorem maybe_open_ctx_refcount_teardown (R : Nat) (hR : 1 ≤ R) (key v : Nat) :
    (∀ i, i ≤ R → (acqN key v i CacheState.init).users = (i : Int)) ∧
    (∀ j, j ≤ R →
      (relN key v j (acqN key v R CacheState.init)).users = (R : Int) - (j : Int)) ∧
    (∀ j, j < R → (relN key v j (acqN key v R CacheState.init)).teardowns = 0) ∧
    (relN key v R (acqN key v R CacheState.init)).teardowns = 1 ∧
    (relN key v R (acqN key v R CacheState.init)).values = [] := by
  refine ⟨?_, ?_, ?_, ?_, ?_⟩
  · intro i hi
    by_cases h0 : i = 0
    · subst h0; rfl
    · rw [acqN_init key v i (by omega)]; rfl
  · intro j hj
    rw [acqN_init key v R hR]
    by_cases hjR : j = R
    · subst hjR
      rw [relN_all key v j (by omega)]
      have hd : deadState.users = 0 := rfl
      rw [hd]
      omega
    · rw [relN_live key v j R (by omega)]
      simp [liveState]
      omega
  · intro j hj
    rw [acqN_init key v R hR, relN_live key v j R hj]
    rfl
  · rw [acqN_init key v R hR, relN_all key v R hR]
    rfl
  · rw [acqN_init key v R hR, relN_all key v R hR]
    rfl

/-- Witness for C2 at `R = 2`, `key = 0`, `v = 5`. -/
theorem maybe_open_ctx_refcount_teardown_witness :
    1 ≤ 2 ∧
    (relN 0 5 1 (acqN 0 5 2 CacheState.init)).teardowns = 0 ∧
    (relN 0 5 2 (acqN 0 5 2 CacheState.init)).teardowns = 1 ∧
    (relN 0 5 2 (acqN 0 5 2 CacheState.init)).users = 0 :=
  ⟨by decide,
   (maybe_open_ctx_refcount_teardown 2 (by decide) 0 5).2.2.1 1 (by decide),
   (maybe_open_ctx_refcount_teardown 2 (by decide) 0 5).2.2.2.1,
   by
     have h := (maybe_open_ctx_refcount_teardown 2 (by decide) 0 5).2.1 2 (by decide)
     simpa using h⟩

/-- C3: if the factory raises while constructing the resource for a key
with no live entry, the failure propagates to the acquiring caller, the
key is absent from `cache.values` afterwards, and a subsequent acquire of
the same key re-attempts construction (here with a different factory
producing `w`) instead of observing a poisoned entry. -/
theorem maybe_open_ctx_construction_failure (s : CacheState) (key w : Nat)
    (hmiss : alookup key s.values = none) :
    (acquireCall s key (Except.error ())).1 = Except.error () ∧
    alookup key ((acquireCall s key (Except.error ())).2).values = none ∧
    (acquireCall ((acquireCall s key (Except.error ())).2) key
        (Except.ok w)).1 = Except.ok (false, w) ∧
    alookup key ((acquireCall ((acquireCall s key (Except.error ())).2) key
        (Except.ok w)).2).values = some w := by
  have h2 : ((acquireCall s key (Except.error ())).2).values = s.values := by
    rw [acquireCall_fail s key hmiss]
  have hmiss2 : alookup key ((acquireCall s key (Except.error ())).2).values
      = none := by
    rw [h2]; exact hmiss
  refine ⟨?_, hmiss2, ?_, ?_⟩
  · rw [acquireCall_fail s key hmiss]
  · rw [acquireCall_miss _ key w hmiss2]
  · rw [acquireCall_miss _ key w hmiss2]
    simp [alookup]

/-- Witness for C3 at a concrete input. -/
theorem maybe_open_ctx_construction_failure_witness :
    alookup 4 CacheState.init.values = none ∧
    (acquireCall CacheState.init 4 (Except.error ())).1 = Except.error () ∧
    (acquireCall ((acquireCall CacheState.init 4 (Except.error ())).2) 4
        (Except.ok 11)).1 = Except.ok (false, 11) :=
  ⟨by decide,
   (maybe_open_ctx_construction_failure CacheState.init 4 11 (by decide)).1,
   (maybe_open_ctx_construction_failure CacheState.init 4 11 (by decide)).2.2.1⟩

/-! ### Lock discipline in `maybe_open_ctx` (C6) -/

theorem acquirePhase_hit (s : CacheState) (key v : Nat) (f : Factory)
    (h : alookup key s.values = some v) :
    acquirePhase s key f =
      (Except.ok (true, v),
       { s with users := s.users + 1, lockHeld := false }) := by
  simp [acquirePhase, h]

theorem acquirePhase_miss (s : CacheState) (key v : Nat)
    (h : alookup key s.values = none) :
    acquirePhase s key (Except.ok v) =
      (Except.ok (false, v),
       { s with factoryCalls := s.factoryCalls + 1,
                eventSet := false,
                values := (key, v) :: s.values,
                users := s.users + 1,
                lockHeld := false }) := by
  simp [acquirePhase, h]

theorem acquirePhase_err (s : CacheState) (key : Nat) (e : Unit)
    (h : alookup key s.values = none) :
    acquirePhase s key (Except.error e) =
      (Except.error e,
       { s with factoryCalls := s.factoryCalls + 1, lockHeld := true }) := by
  simp [acquirePhase, h]

theorem guardedRelease_eq_false (held : Bool) : guardedRelease held = false := by
  cases held <;> rfl

theorem acquirePhase_ok_lockHeld (s : CacheState) (key : Nat) (f : Factory)
    (r : Bool × Nat) (s' : CacheState)
    (h : acquirePhase s key f = (Except.ok r, s')) : s'.lockHeld = false := by
  rcases hl : alookup key s.values with _ | v
  · rcases f with e | v0
    · rw [acquirePhase_err s key e hl] at h
      exact Except.noConfusion (congrArg Prod.fst h)
    · rw [acquirePhase_miss s key v0 hl] at h
      injection h with h1 h2
      subst h2
      rfl
  · rw [acquirePhase_hit s key v f hl] at h
    injection h with h1 h2
    subst h2
    rfl

theorem releasePhase_lockHeld (s : CacheState) (key : Nat)
    (value : Option Nat) : (releasePhase s key value).lockHeld = false := by
  rcases value with _ | v
  · exact guardedRelease_eq_false _
  · simp only [releasePhase]
    split
    · split
      · exact guardedRelease_eq_false _
      · exact guardedRelease_eq_false _
    · exact guardedRelease_eq_false _

/-- C6: in `maybe_open_ctx` the cache lock is released before the value
is yielded to the caller on both the hit and the miss path (every
successful `acquirePhase` ends with the lock free), the cleanup phase
leaves the lock free on every exit path, and its guarded release
(`if cache.lock.locked(): cache.lock.release()`) is a no-op when the
lock was already released — whereas the unguarded `release()` would
raise there. -/
theorem maybe_open_ctx_lock_discipline :
    (∀ (s : CacheState) (key : Nat) (f : Factory) (r : Bool × Nat)
        (s' : CacheState),
      acquirePhase s key f = (Except.ok r, s') → s'.lockHeld = false) ∧
    (∀ (s : CacheState) (key : Nat) (value : Option Nat),
      (releasePhase s key value).lockHeld = false) ∧
    guardedRelease false = false ∧
    lockRelease false = Except.error () :=
  ⟨fun s key f r s' h => acquirePhase_ok_lockHeld s key f r s' h,
   fun s key value => releasePhase_lockHeld s key value,
   rfl, rfl⟩

/-- Witness for C6 at a concrete input. -/
theorem maybe_open_ctx_lock_discipline_witness :
    ((acquirePhase CacheState.init 3 (Except.ok 7)).2).lockHeld = false ∧
    (releasePhase CacheState.init 3 none).lockHeld = false :=
  ⟨maybe_open_ctx_lock_discipline.1 CacheState.init 3 (Except.ok 7) (false, 7)
      ((acquirePhase CacheState.init 3 (Except.ok 7)).2) rfl,
   maybe_open_ctx_lock_discipline.2.1 CacheState.init 3 none⟩

/-! ### Refcount underflow (C7) -/

/-- C7 counterexample: the claim "the consumer/reference count never
becomes negative" is false on the code.  A single `maybe_open_ctx`
acquire whose factory raises runs the `finally` block's unconditional
`cache.users -= 1` without ever having incremented, driving
`cache.users` from 0 to -1. -/
theorem maybe_open_ctx_users_negative_cex :
    ((acquireCall CacheState.init 0 (Except.error ())).2).users = -1 ∧
    ((acquireCall CacheState.init 0 (Except.error ())).2).users < 0 := by
  constructor
  · rfl
  · decide

/-- C7 amended: the cleanup decrement of `maybe_open_ctx` is
unconditional, so a release whose acquire failed (no matching increment)
is *not* a no-op — it still decrements `cache.users`, which can
therefore go negative — but such an unmatched release triggers no
teardown and leaves the cache table unchanged. -/
theorem maybe_open_ctx_unmatched_release (s : CacheState) (key : Nat) :
    (releasePhase s key none).teardowns = s.teardowns ∧
    (releasePhase s key none).users = s.users - 1 ∧
    (releasePhase s key none).values = s.values :=
  ⟨rfl, rfl, rfl⟩

/-! ## The broker-client cache (`open_cached_client`, lines 84-131)

State mirrors `_cache['clients']` (brokername ↦ client object) and the
two attributes set on each client object (`_consumers` and
`_exit_stack`).  Client objects are modelled by identity (`Nat` ids,
allocated by `nextId`); `consumers` and `acloses` are per-object heaps:
mutating `client._consumers` through one holder is visible to all
holders of the same object.  `acloses` counts how many times
`client._exit_stack.aclose()` was awaited.  Broker names are `Nat`.
The global `'_lock'` serializes the check/construct sections, so each
operation is one atomic step here. -/

structure ClientCacheState where
  clients : List (Nat × Nat)
  consumers : List (Nat × Int)
  acloses : List (Nat × Nat)
  nextId : Nat
deriving DecidableEq

/-- The module-load state: `_cache = {}` (so no clients, no objects). -/
def ClientCacheState.init : ClientCacheState :=
  { clients := [], consumers := [], acloses := [], nextId := 0 }

/-- `open_cached_client` lines 101-124, up to the `yield`: under the
lock, try `clients[brokername]` — on a hit `client._consumers += 1`; on
a `KeyError`, build the client via `brokermod.get_client()` entered on a
fresh `AsyncExitStack`, set `client._consumers = 0`, store the stack and
publish `clients[brokername] = client`.  Returns the yielded client. -/
def openClient (s : ClientCacheState) (brokername : Nat) :
    Nat × ClientCacheState :=
  match alookup brokername s.clients with
  | some client =>
      (client,
       { s with
          consumers :=
            aset client ((alookup client s.consumers).getD 0 + 1) s.consumers })
  | none =>
      let client := s.nextId
      (client,
       { s with clients := aset brokername client s.clients,
                consumers := aset client 0 s.consumers,
                acloses := aset client 0 s.acloses,
                nextId := s.nextId + 1 })

/-- `open_cached_client` lines 126-131 (the `finally` block) for a
holder whose `client` local was set: `client._consumers -= 1; if
client._consumers <= 0: await client._exit_stack.aclose()`. -/
def closeClient (s : ClientCacheState) (client : Nat) : ClientCacheState :=
  let c := (alookup client s.consumers).getD 0 - 1
  let s1 : ClientCacheState := { s with consumers := aset client c s.consumers }
  if c ≤ 0 then
    { s1 with
        acloses :=
          aset client ((alookup client s1.acloses).getD 0 + 1) s1.acloses }
  else s1

/-- C8 is a code bug; this theorem evaluates the code at the failing
input.  Two concurrent holders of broker `7`: task A misses and
constructs (the code sets `client._consumers = 0`, not counting A
itself), task B hits the cache and receives the *same* client object
(`_consumers` becomes 1).  When A alone exits, `_consumers` drops to
0 ≤ 0 and the exit stack is closed (`acloses = 1`) even though B still
holds the client; after B also exits `aclose` has been invoked a second
time (`acloses = 2`), so the stacked-cleanup handle is neither closed
exactly once nor only when the number of active consumers reaches
zero. -/
theorem open_cached_client_premature_teardown :
    (openClient ((openClient ClientCacheState.init 7).2) 7).1
      = (openClient ClientCacheState.init 7).1 ∧
    alookup (openClient ClientCacheState.init 7).1
      ((openClient ((openClient ClientCacheState.init 7).2) 7).2).consumers
      = some 1 ∧
    alookup (openClient ClientCacheState.init 7).1
      ((closeClient ((openClient ((openClient ClientCacheState.init 7).2) 7).2)
          (openClient ClientCacheState.init 7).1)).acloses
      = some 1 ∧
    alookup (openClient ClientCacheState.init 7).1
      ((closeClient
          (closeClient ((openClient ((openClient ClientCacheState.init 7).2) 7).2)
            (openClient ClientCacheState.init 7).1)
          (openClient ClientCacheState.init 7).1)).acloses
      = some 2 := by
  decide

/-! ## The daemon spawner (`piker/service/_daemon.py`, `maybe_spawn_daemon`)

The function is embedded as a trace of the externally visible events it
performs, in program order, for one call whose caller body runs to a
normal exit.  Collaborators (`find_service`, `maybe_open_pikerd`,
`service_task_target`, `pikerd_portal.run`, `tractor.wait_for_actor`)
are parameters of the environment; portals are `Nat` ids. -/

inductive DEv where
  /-- `await lock.acquire()` on `Services.locks[service_name]` (line 87) -/
  | lockAcq
  /-- `lock.release()` (line 91 or line 138) -/
  | lockRel
  /-- `started = await service_task_target(**spawn_args)` (line 120) -/
  | localStart
  /-- `started = await pikerd_portal.run(service_task_target, **spawn_args)` (line 129) -/
  | remoteStart
  /-- `tractor.wait_for_actor(service_name)` resolved (line 137) -/
  | waitActor
  /-- `yield portal` handing the given portal to the caller (line 92 or 139) -/
  | yieldPortal (portal : Nat)
  /-- `await portal.cancel_actor()` (line 140) -/
  | cancelActor
  /-- the exception from a failed start propagates to the caller -/
  | raiseErr
deriving DecidableEq

/-- Environment of one `maybe_spawn_daemon` call:
`registry` is what `find_service(service_name)` yields; `rootPortal` is
what `maybe_open_pikerd` yields (`none` exactly when this process is —
or just became — the root `pikerd`); `localStart` / `remoteStart` are
the outcomes of the in-process start routine and of the remote delegate
call; `discovered` is the portal produced by `tractor.wait_for_actor`. -/
structure SpawnEnv where
  registry : Option Nat
  rootPortal : Option Nat
  localStart : Except Unit Bool
  remoteStart : Except Unit Bool
  discovered : Nat

/-- Shared tail of the two miss paths (lines 134-140): whatever the
`started` flag says, wait for the actor, release the lock, yield the
portal, and — on the caller's normal exit — cancel the actor. -/
def afterStart (env : SpawnEnv) : List DEv :=
  [DEv.waitActor, DEv.lockRel, DEv.yieldPortal env.discovered,
   DEv.cancelActor]

/-- `maybe_spawn_daemon` (lines 84-140) as an event trace.  There is no
try/finally around the section between `lock.acquire()` and the
releases at lines 91/138, so a failing start routine or delegate call
ends the trace with the raised error and no `lockRel`. -/
def maybe_spawn_daemon (env : SpawnEnv) : List DEv :=
  DEv.lockAcq ::
    match env.registry with
    | some portal => [DEv.lockRel, DEv.yieldPortal portal]
    | none =>
        match env.rootPortal with
        | none =>
            DEv.localStart ::
              (match env.localStart with
               | Except.error _ => [DEv.raiseErr]
               | Except.ok _ => afterStart env)
        | some _ =>
            DEv.remoteStart ::
              (match env.remoteStart with
               | Except.error _ => [DEv.raiseErr]
               | Except.ok _ => afterStart env)

/-- Environment for the C4 failing input: registry miss, this process is
root, and the start routine raises. -/
def lockLeakEnv : SpawnEnv :=
  { registry := none, rootPortal := none,
    localStart := Except.error (), remoteStart := Except.ok true,
    discovered := 0 }

/-- Environment for the C4 failing input with a remote delegate: registry
miss, a root pikerd is reachable, and the delegated start call fails. -/
def remoteLockLeakEnv : SpawnEnv :=
  { registry := none, rootPortal := some 9,
    localStart := Except.ok true, remoteStart := Except.error (),
    discovered := 0 }

/-- C4 is a code bug; this theorem evaluates the code at the failing
inputs.  There is no try/finally guarding `Services.locks[service_name]`
in `maybe_spawn_daemon`: when the local start routine raises — and
likewise when the remote delegate call fails — the error surfaces to
the caller (no retry is attempted: no second start event appears), but
the trace contains the lock acquisition and no release, so the
per-service-name lock is left held, contradicting the claimed
guaranteed-release discipline. -/
theorem maybe_spawn_daemon_lock_leak :
    maybe_spawn_daemon lockLeakEnv
      = [DEv.lockAcq, DEv.localStart, DEv.raiseErr] ∧
    (maybe_spawn_daemon lockLeakEnv).count DEv.lockRel = 0 ∧
    (maybe_spawn_daemon lockLeakEnv).count DEv.lockAcq = 1 ∧
    maybe_spawn_daemon remoteLockLeakEnv
      = [DEv.lockAcq, DEv.remoteStart, DEv.raiseErr] ∧
    (maybe_spawn_daemon remoteLockLeakEnv).count DEv.lockRel = 0 := by
  decide

/-- C5: on a registry miss, the start routine runs in-process exactly
when `maybe_open_pikerd` yielded no portal (this process is the root
coordinator), and is otherwise delegated to the root via the remote
call; in both cases, when the start call returns, the caller waits for
the named actor to be discoverable, obtains its portal, and only then
releases the lock and yields the portal. -/
theorem maybe_spawn_daemon_root_dispatch (env : SpawnEnv)
    (hmiss : env.registry = none) :
    (∀ b : Bool, env.rootPortal = none → env.localStart = Except.ok b →
      maybe_spawn_daemon env
        = [DEv.lockAcq, DEv.localStart, DEv.waitActor, DEv.lockRel,
           DEv.yieldPortal env.discovered, DEv.cancelActor]) ∧
    (∀ (p : Nat) (b : Bool), env.rootPortal = some p →
      env.remoteStart = Except.ok b →
      maybe_spawn_daemon env
        = [DEv.lockAcq, DEv.remoteStart, DEv.waitActor, DEv.lockRel,
           DEv.yieldPortal env.discovered, DEv.cancelActor]) ∧
    (env.rootPortal = none →
      DEv.remoteStart ∉ maybe_spawn_daemon env) ∧
    (∀ p : Nat, env.rootPortal = some p →
      DEv.localStart ∉ maybe_spawn_daemon env) := by
  refine ⟨?_, ?_, ?_, ?_⟩
  · intro b hroot hstart
    simp [maybe_spawn_daemon, hmiss, hroot, hstart, afterStart]
  · intro p b hroot hstart
    simp [maybe_spawn_daemon, hmiss, hroot, hstart, afterStart]
  · intro hroot
    rcases hs : env.localStart with e | b <;>
      simp [maybe_spawn_daemon, hmiss, hroot, hs, afterStart]
  · intro p hroot
    rcases hs : env.remoteStart with e | b <;>
      simp [maybe_spawn_daemon, hmiss, hroot, hs, afterStart]

/-- Witness for C5 at concrete environments. -/
theorem maybe_spawn_daemon_root_dispatch_witness :
    ({ registry := none, rootPortal := none, localStart := Except.ok true,
       remoteStart := Except.ok true, discovered := 3 } : SpawnEnv).registry
      = none ∧
    maybe_spawn_daemon
        { registry := none, rootPortal := none, localStart := Except.ok true,
          remoteStart := Except.ok true, discovered := 3 }
      = [DEv.lockAcq, DEv.localStart, DEv.waitActor, DEv.lockRel,
         DEv.yieldPortal 3, DEv.cancelActor] :=
  ⟨rfl,
   (maybe_spawn_daemon_root_dispatch
      { registry := none, rootPortal := none, localStart := Except.ok true,
        remoteStart := Except.ok true, discovered := 3 } rfl).1 true rfl rfl⟩

/-- Environment for the C9 failing input: registry miss, root in-process
spawn succeeds, caller uses the service and exits its context
normally. -/
def normalExitEnv : SpawnEnv :=
  { registry := none, rootPortal := none,
    localStart := Except.ok true, remoteStart := Except.ok true,
    discovered := 7 }

/-- C9 is a code bug; this theorem evaluates the code at the failing
input.  The docstring of `maybe_spawn_daemon` (and the spec) says a
spawned service "will persist as long as pikerd does or it is requested
to be cancelled", yet line 140 runs `await portal.cancel_actor()` as
soon as the spawning caller's context exits normally: the trace of a
normal-exit call on the spawn path ends with the cancellation of the
service.  On the registry-hit path (an already-running service) no such
cancellation is issued. -/
theorem maybe_spawn_daemon_cancels_on_exit :
    maybe_spawn_daemon normalExitEnv
      = [DEv.lockAcq, DEv.localStart, DEv.waitActor, DEv.lockRel,
         DEv.yieldPortal 7, DEv.cancelActor] ∧
    DEv.cancelActor ∈ maybe_spawn_daemon normalExitEnv ∧
    DEv.cancelActor ∉ maybe_spawn_daemon
        { registry := some 5, rootPortal := none,
          localStart := Except.ok true, remoteStart := Except.ok true,
          discovered := 7 } := by
  refine ⟨by decide, by decide, by decide⟩

/-! ## `async_lifo_cache` (`_cacheables.py`, lines 49-75)

The decorator's `OrderedDict` memo is modelled as a list of
`(args, result)` pairs in insertion order, oldest first; `popitem()`
(its default `last=True`) removes the most recently inserted entry, so
it drops the *last* element; a new entry is appended at the end.  On a
miss with `len(cache) >= maxsize` and an *empty* table (only possible
when `maxsize = 0`), `popitem()` raises `KeyError` inside the
`except KeyError` handler and the call fails.  The wrapped coroutine
`fn` is a pure function of the positional arguments here; the third
result component counts how many times `fn` was awaited during the
call. -/

/-- `key = args; cache[key]` lookup. -/
def lifoLookup (args : List Nat) : List (List Nat × Nat) → Option Nat
  | [] => none
  | (k, v) :: rest => if k = args then some v else lifoLookup args rest

/-- One call of the `wrapper` closure produced by
`async_lifo_cache(maxsize)` applied to `fn`, on memo state `c`. -/
def lifoCall (maxsize : Nat) (fn : List Nat → Nat)
    (c : List (List Nat × Nat)) (args : List Nat) :
    Except Unit (Nat × List (List Nat × Nat) × Nat) :=
  match lifoLookup args c with
  | some v => Except.ok (v, c, 0)
  | none =>
      if maxsize ≤ c.length then
        match c with
        | [] => Except.error ()
        | _ :: _ =>
            Except.ok (fn args, c.dropLast ++ [(args, fn args)], 1)
      else Except.ok (fn args, c ++ [(args, fn args)], 1)

/-- A concrete wrapped function for closed statements. -/
def headFn : List Nat → Nat := fun l => l.headD 0

theorem lifoCall_hit (maxsize : Nat) (fn : List Nat → Nat)
    (c : List (List Nat × Nat)) (args : List Nat) (v : Nat)
    (h : lifoLookup args c = some v) :
    lifoCall maxsize fn c args = Except.ok (v, c, 0) := by
  simp [lifoCall, h]

theorem lifoCall_miss_room (maxsize : Nat) (fn : List Nat → Nat)
    (c : List (List Nat × Nat)) (args : List Nat)
    (h : lifoLookup args c = none) (hroom : c.length < maxsize) :
    lifoCall maxsize fn c args
      = Except.ok (fn args, c ++ [(args, fn args)], 1) := by
  simp [lifoCall, h, Nat.not_le.mpr hroom]

theorem lifoCall_miss_full (maxsize : Nat) (fn : List Nat → Nat)
    (x : List Nat × Nat) (xs : List (List Nat × Nat)) (args : List Nat)
    (h : lifoLookup args (x :: xs) = none)
    (hfull : maxsize ≤ (x :: xs).length) :
    lifoCall maxsize fn (x :: xs) args
      = Except.ok (fn args, (x :: xs).dropLast ++ [(args, fn args)], 1) := by
  simp only [lifoCall, h]
  rw [if_pos hfull]

/-- C10 counterexample: the claim fails on the code at `maxsize = 0`.
An uncached call arrives while the (empty) table holds `maxsize = 0`
entries; the claim requires exactly one entry to be evicted and the new
result stored, but the code reaches `cache.popitem()` on an empty
`OrderedDict`, which raises `KeyError`: no entry is evicted and no
result is stored. -/
theorem async_lifo_cache_maxsize_zero_cex :
    lifoCall 0 headFn [] [5] = Except.error () :=
  rfl

/-- C10 amended: for every `maxsize ≥ 1` the claim holds as stated —
the memo never exceeds `maxsize` entries, a call whose positional
arguments were seen before returns the stored result without awaiting
the wrapped function, and an uncached call arriving at capacity evicts
exactly the most recently inserted entry before appending the new one;
with `maxsize = 0`, however, an uncached call raises `KeyError` (from
`popitem()` on the empty table) and stores nothing.  The size bound
itself holds for every `maxsize`. -/
theorem async_lifo_cache_behavior (maxsize : Nat) (fn : List Nat → Nat)
    (c : List (List Nat × Nat)) (args : List Nat)
    (hlen : c.length ≤ maxsize) :
    (∀ (v : Nat) (c' : List (List Nat × Nat)) (n : Nat),
        lifoCall maxsize fn c args = Except.ok (v, c', n) →
          c'.length ≤ maxsize) ∧
    (∀ v : Nat, lifoLookup args c = some v →
        lifoCall maxsize fn c args = Except.ok (v, c, 0)) ∧
    (lifoLookup args c = none → c.length = maxsize → 1 ≤ maxsize →
        lifoCall maxsize fn c args
          = Except.ok (fn args, c.dropLast ++ [(args, fn args)], 1)) ∧
    (lifoLookup args c = none → c.length < maxsize →
        lifoCall maxsize fn c args
          = Except.ok (fn args, c ++ [(args, fn args)], 1)) ∧
    (lifoLookup args c = none → maxsize = 0 →
        lifoCall maxsize fn c args = Except.error ()) := by
  refine ⟨?_, ?_, ?_, ?_, ?_⟩
  · intro v c' n h
    rcases hl : lifoLookup args c with _ | v0
    · by_cases hfull : maxsize ≤ c.length
      · rcases hc : c with _ | ⟨x, xs⟩
        · subst hc
          have h0 : maxsize = 0 := by
            have h0' := hfull
            simp at h0'
            exact h0'
          subst h0
          rw [show lifoCall 0 fn [] args = Except.error () from rfl] at h
          exact Except.noConfusion h
        · subst hc
          rw [lifoCall_miss_full maxsize fn x xs args hl hfull] at h
          simp only [Except.ok.injEq, Prod.mk.injEq] at h
          obtain ⟨h1, h2, h3⟩ := h
          rw [← h2]
          have h4 : (x :: xs).dropLast.length = xs.length := by
            simp
          have h5 : ((x :: xs).dropLast ++ [(args, fn args)]).length
              = xs.length + 1 := by
            rw [List.length_append, h4]
            rfl
          rw [h5]
          have h6 : (x :: xs).length = xs.length + 1 := rfl
          rw [h6] at hlen
          exact hlen
      · rw [lifoCall_miss_room maxsize fn c args hl (by omega)] at h
        simp only [Except.ok.injEq, Prod.mk.injEq] at h
        obtain ⟨h1, h2, h3⟩ := h
        rw [← h2]
        simp only [List.length_append, List.length_singleton]
        omega
    · rw [lifoCall_hit maxsize fn c args v0 hl] at h
      simp only [Except.ok.injEq, Prod.mk.injEq] at h
      obtain ⟨h1, h2, h3⟩ := h
      rw [← h2]
      exact hlen
  · intro v hl
    exact lifoCall_hit maxsize fn c args v hl
  · intro hl hfull hpos
    rcases hc : c with _ | ⟨x, xs⟩
    · subst hc
      simp at hfull
      omega
    · subst hc
      exact lifoCall_miss_full maxsize fn x xs args hl (by omega)
  · intro hl hroom
    exact lifoCall_miss_room maxsize fn c args hl hroom
  · intro hl h0
    subst h0
    have hc : c = [] := List.eq_nil_of_length_eq_zero (by omega)
    subst hc
    simp [lifoCall, hl]

/-- Witness for C10 (amended) at a concrete input: capacity 2, table
full with two entries, uncached call `[3]` evicts the most recently
inserted entry `([2], 20)` and stores `([3], 3)`. -/
theorem async_lifo_cache_behavior_witness :
    ([([1], 10), ([2], 20)] : List (List Nat × Nat)).length ≤ 2 ∧
    lifoLookup [3] [([1], 10), ([2], 20)] = none ∧
    lifoCall 2 headFn [([1], 10), ([2], 20)] [3]
      = Except.ok (3, [([1], 10), ([3], 3)], 1) :=
  ⟨by decide, by decide,
   (async_lifo_cache_behavior 2 headFn [([1], 10), ([2], 20)] [3]
      (by decide)).2.2.1 (by decide) (by decide) (by decide)⟩

end PikerSpec
